import Mathlib

/-
Verification of the personal finance tracker core (src/app.py):
price resolution, investment enrichment, tax classification, and the
consolidated ledger view. Python dictionaries with a fixed key set are
modelled as Lean structures; monetary values (Python floats used as exact
decimals) are modelled as rationals; calendar dates (datetime with zero
time component) are modelled as year/month/day triples compared
lexicographically, exactly as Python datetime comparison behaves.
External services (yfinance) are modelled as oracle functions passed in
as parameters.
-/

namespace FinTrack

/-- Calendar date, as carried by a Python datetime with zero time
component. Python datetime comparison is lexicographic on
(year, month, day). -/
structure Date where
  year : Int
  month : Int
  day : Int
  deriving DecidableEq

/-- Lexicographic non-strict comparison, mirroring datetime `<=`. -/
def Date.le (a b : Date) : Bool :=
  decide (a.year < b.year) ||
    (decide (a.year = b.year) &&
      (decide (a.month < b.month) ||
        (decide (a.month = b.month) && decide (a.day ≤ b.day))))

/-- Lexicographic strict comparison, mirroring datetime `<`. -/
def Date.lt (a b : Date) : Bool :=
  decide (a.year < b.year) ||
    (decide (a.year = b.year) &&
      (decide (a.month < b.month) ||
        (decide (a.month = b.month) && decide (a.day < b.day))))

/-- Day number of a calendar date (days since the epoch of the formula;
only differences matter). This mirrors the day arithmetic of Python
datetime plus timedelta used in get_historical_price: adding
timedelta(days=n) adds n to the day number. Standard civil-calendar
formula with floor division. -/
def Date.toDay (dt : Date) : Int :=
  let y := if dt.month ≤ 2 then dt.year - 1 else dt.year
  let m := if dt.month ≤ 2 then dt.month + 9 else dt.month - 3
  365 * y + Int.fdiv y 4 - Int.fdiv y 100 + Int.fdiv y 400 +
    Int.fdiv (153 * m + 2) 5 + dt.day - 1

/-- Transaction record as persisted in transactions.json
(src/app.py lines 180-187). -/
structure Transaction where
  id : String
  date : Date
  description : String
  category : String
  type : String
  amount : ℚ
  deriving DecidableEq

/-- Investment record as persisted in investments.json
(src/app.py lines 218-227). -/
structure Investment where
  id : String
  purchase_date : Date
  name : String
  ticker : String
  type : String
  amount_invested : ℚ
  purchase_price : ℚ
  units : ℚ
  deriving DecidableEq

/-- Character-wise lowercasing, the model of Python str.lower(). The
tickers and the sentinel marker are ASCII, where the two agree. -/
def lowerStr (s : String) : String := ⟨s.data.map Char.toLower⟩

/-- Character-wise uppercasing, the model of Python str.upper() used on
the submitted ticker (src/app.py line 207). -/
def upperStr (s : String) : String := ⟨s.data.map Char.toUpper⟩

/-- Market history oracle: close price of a ticker on an absolute day
number, or none on a non-trading day. Stands for the data yf.download
returns (src/app.py lines 58 and 62). -/
def HistData : Type := String → Int → Option ℚ

/-- Day numbers in the half-open window from lo (inclusive) to hi
(exclusive), ascending. yf.download with start and end returns the
trading sessions inside exactly this window, in date order. -/
def dayRange (lo hi : Int) : List Int :=
  (List.range (hi - lo).toNat).map (fun (k : Nat) => lo + (k : Int))

/-- Close prices of the trading sessions of the window, in date order:
the model of one yf.download call (src/app.py line 58). -/
def download (data : HistData) (ticker : String) (lo hi : Int) : List ℚ :=
  (dayRange lo hi).filterMap (fun d => data ticker d)

/-- Embedding of get_historical_price (src/app.py lines 50-70). The
sentinel check is line 52 (ticker empty or case-insensitively equal to
the no-market marker); the first query covers the two-day window from
the date (line 56-58, end exclusive); on empty data the retry starts
four days earlier (lines 61-62) and the last row is taken (line 65);
if the retry is also empty the function returns none (line 64). A date
is passed already parsed to its day number. -/
def get_historical_price (data : HistData) (ticker : String) (date : Int) :
    Option ℚ :=
  if ticker = "" ∨ lowerStr ticker = "n/a" then some 1
  else
    match download data ticker date (date + 2) with
    | [] =>
      (download data ticker (date - 4) (date + 2)).getLast?
    | c :: _ => some c

/-- Live quote oracle: the result of reading previousClose (falling back
to regularMarketPrice) from yf.Ticker(ticker).info. Except.error stands
for any exception raised inside the try block (network failure,
unparseable value); Except.ok none stands for both fields missing. -/
def LiveInfo : Type := String → Except Unit (Option ℚ)

/-- Embedding of get_live_price (src/app.py lines 72-82). The sentinel
check is line 74; the falsy test on the price (line 79: a price of None
or 0 yields 0.0) becomes the none and zero cases; every exception is
caught and yields 0.0 (lines 80-82), so the model is total. -/
def get_live_price (info : LiveInfo) (ticker : String) : ℚ :=
  if ticker = "" ∨ lowerStr ticker = "n/a" then 1
  else
    match info ticker with
    | Except.error _ => 0
    | Except.ok none => 0
    | Except.ok (some p) => if p = 0 then 0 else p

/-- Absolute value, the model of the Python builtin abs applied to the
expense total at src/app.py line 301. -/
def pyAbs (q : ℚ) : ℚ := if q < 0 then -q else q

/-- Round to two decimal places, the model of round(x, 2) at
src/app.py lines 105-107. Python rounds halves to even; monetary values
modelled as exact rationals. -/
def round2 (q : ℚ) : ℚ :=
  let x := 100 * q
  let f := ⌊x⌋
  let r := x - f
  let n : Int :=
    if r < 1/2 then f
    else if r > 1/2 then f + 1
    else if f % 2 = 0 then f else f + 1
  n / 100

/-- Whole-month holding period, src/app.py line 95:
(now.year - purchase.year) * 12 + now.month - purchase.month. -/
def holding_months (now purchase : Date) : Int :=
  (now.year - purchase.year) * 12 + now.month - purchase.month

/-- Tax bucket, src/app.py lines 97-101: Stock and Mutual Fund get LTCG
when held more than 12 months and STCG otherwise; every other asset
type keeps the initial N/A. -/
def tax_status (assetType : String) (hm : Int) : String :=
  if assetType = "Stock" then (if hm > 12 then "LTCG" else "STCG")
  else if assetType = "Mutual Fund" then (if hm > 12 then "LTCG" else "STCG")
  else "N/A"

/-- Enriched investment record: the copy of the stored record
(inv.copy() at line 103) plus exactly the five derived fields added by
the update call at lines 104-110. -/
structure EnrichedInvestment where
  base : Investment
  current_price : ℚ
  current_value : ℚ
  gain_loss : ℚ
  holding_months : Int
  tax_status : String
  deriving DecidableEq

/-- Enrichment of one investment, the loop body of
enrich_investments_data (src/app.py lines 87-111). The truthiness test
on current_price at line 91 becomes the zero test; now is the datetime
of the call. -/
def enrich_one (info : LiveInfo) (now : Date) (inv : Investment) :
    EnrichedInvestment :=
  let current_price := get_live_price info inv.ticker
  let units := inv.units
  let current_value := if current_price ≠ 0 then units * current_price else 0
  let gain_loss := current_value - inv.amount_invested
  let hm := holding_months now inv.purchase_date
  { base := inv
    current_price := round2 current_price
    current_value := round2 current_value
    gain_loss := round2 gain_loss
    holding_months := hm
    tax_status := tax_status inv.type hm }

/-- Embedding of enrich_investments_data (src/app.py lines 84-112): the
append loop over the input list is a map. -/
def enrich_investments_data (info : LiveInfo) (now : Date)
    (investments : List Investment) : List EnrichedInvestment :=
  investments.map (enrich_one info now)

/-- Consolidated activity row, the dictionary built at
src/app.py lines 270-278 (from a transaction) or 285-293 (from an
investment). -/
structure Activity where
  id : String
  source : String
  date : Date
  description : String
  category : String
  type : String
  amount : ℚ
  deriving DecidableEq

/-- Date-range test shared by both filters of consolidated_view
(src/app.py lines 250-262): a missing bound is unconstrained, a present
bound compares inclusively with datetime comparison. -/
def inRange (start_date end_date : Option Date) (d : Date) : Bool :=
  (match start_date with
   | none => true
   | some sd => Date.le sd d) &&
  (match end_date with
   | none => true
   | some ed => Date.le d ed)

/-- Activity built from a retained transaction (src/app.py
lines 270-278): every field is copied and the amount is the stored
amount, unchanged. -/
def txActivity (t : Transaction) : Activity :=
  { id := t.id
    source := "transaction"
    date := t.date
    description := t.description
    category := t.category
    type := t.type
    amount := t.amount }

/-- Activity built from a retained investment (src/app.py
lines 285-293): category and type are the literal Investment tag and
the amount is the negated invested amount. -/
def invActivity (i : Investment) : Activity :=
  { id := i.id
    source := "investment"
    date := i.purchase_date
    description := i.name
    category := "Investment"
    type := "Investment"
    amount := -i.amount_invested }

/-- Stable insertion into a date-descending list: the new element goes
after every element with a strictly later date and before the rest. -/
def insertDesc (a : Activity) : List Activity → List Activity
  | [] => [a]
  | b :: bs =>
    if Date.lt a.date b.date then b :: insertDesc a bs else a :: b :: bs

/-- Stable sort by date descending. Python list.sort with a key and
reverse=True (src/app.py line 296) is specified to be a stable sort;
a stable sort by a key is extensionally unique, so this structurally
recursive stable insertion sort computes exactly the same list. -/
def sortDesc : List Activity → List Activity
  | [] => []
  | a :: as => insertDesc a (sortDesc as)

/-- Result rendered by the consolidated view (src/app.py
lines 298-304): the sorted activities and the three totals, with the
expense total passed through abs at line 301. -/
structure ConsolidatedResult where
  activities : List Activity
  total_income : ℚ
  total_expenses : ℚ
  total_invested : ℚ
  deriving DecidableEq

/-- Embedding of consolidated_view (src/app.py lines 238-304). The two
filters are lines 250-262. The single pass over filtered_transactions
(lines 269-282) both appends an activity and accumulates one of the two
totals; being pure, it is decomposed here into a map for the activities
and one fold per total with the same branch condition (line 279). The
investment pass (lines 284-294) likewise. Activities are then sorted by
date descending (line 296) and the expense total is reported as an
absolute value (line 301). -/
def consolidated_view (transactions : List Transaction)
    (investments : List Investment) (start_date end_date : Option Date) :
    ConsolidatedResult :=
  let filtered_transactions :=
    transactions.filter (fun t => inRange start_date end_date t.date)
  let filtered_investments :=
    investments.filter (fun i => inRange start_date end_date i.purchase_date)
  let all_activities :=
    filtered_transactions.map txActivity ++
      filtered_investments.map invActivity
  let total_income :=
    filtered_transactions.foldl
      (fun acc t => if t.type = "Income" then acc + t.amount else acc) 0
  let total_expenses :=
    filtered_transactions.foldl
      (fun acc t => if t.type = "Income" then acc else acc + t.amount) 0
  let total_invested :=
    filtered_investments.foldl (fun acc i => acc + i.amount_invested) 0
  { activities := sortDesc all_activities
    total_income := total_income
    total_expenses := pyAbs total_expenses
    total_invested := total_invested }

/-- Form data of the create-transaction request (src/app.py
lines 180-187), after the float conversion of the amount field. -/
structure TransactionForm where
  date : Date
  description : String
  category : String
  type : String
  amount : ℚ
  deriving DecidableEq

/-- Embedding of the POST branch of transactions_page (src/app.py
lines 179-191): a fresh record is appended and saved; no field is
validated. The generated uuid is a parameter. -/
def add_transaction (transactions : List Transaction) (newId : String)
    (form : TransactionForm) : List Transaction :=
  transactions ++
    [{ id := newId
       date := form.date
       description := form.description
       category := form.category
       type := form.type
       amount := form.amount }]

/-- Form data of the create-investment request (src/app.py
lines 206-208). -/
structure InvestmentForm where
  purchase_date : Date
  name : String
  ticker : String
  type : String
  amount_invested : ℚ
  deriving DecidableEq

/-- Embedding of the POST branch of investments_page (src/app.py
lines 205-231): the ticker is uppercased (line 207), the historical
price is resolved (line 210); none aborts the operation with no record
persisted (lines 212-214); otherwise units is the quotient when the
price is positive and 0 otherwise (line 216), and the record is
appended and saved (lines 218-229). none models the rejected request,
some the new persisted collection. -/
def create_investment (data : HistData) (investments : List Investment)
    (newId : String) (form : InvestmentForm) : Option (List Investment) :=
  let ticker := upperStr form.ticker
  match get_historical_price data ticker form.purchase_date.toDay with
  | none => none
  | some purchase_price =>
    let units :=
      if purchase_price > 0 then form.amount_invested / purchase_price else 0
    some (investments ++
      [{ id := newId
         purchase_date := form.purchase_date
         name := form.name
         ticker := ticker
         type := form.type
         amount_invested := form.amount_invested
         purchase_price := purchase_price
         units := units }])

/-! Concrete sample data used by the counterexamples and witnesses. -/

/-- Expense transaction of 1500, dated 2024-01-15. -/
def tExp : Transaction :=
  ⟨"t1", ⟨2024, 1, 15⟩, "January rent", "Rent", "Expense", 1500⟩

/-- History oracle whose close price is 0.0 on every day: the degenerate
market data under which a zero purchase price is resolved. -/
def hist0 : HistData := fun _ _ => some 0

/-- Create-investment request for 100 at the oracle above. -/
def formC2 : InvestmentForm :=
  ⟨⟨2024, 1, 10⟩, "Zero Corp", "zero", "Stock", 100⟩

/-- The record that hist0 plus formC2 persist: zero price and zero
units. -/
def recC2 : Investment :=
  ⟨"i1", ⟨2024, 1, 10⟩, "Zero Corp", "ZERO", "Stock", 100, 0, 0⟩

/-- History oracle with a single trading session on day 10: models a
purchase dated on a weekend two days after the last session. -/
def histW : HistData := fun _ d => if d = 10 then some 42 else none

/-- Live oracle that fails on every ticker. -/
def errLive : LiveInfo := fun _ => Except.error ()

/-- Income transaction dated exactly on a filter bound. -/
def tBoundary : Transaction :=
  ⟨"t4", ⟨2024, 3, 1⟩, "Pay", "Salary", "Income", 900⟩

/-- Create-transaction request carrying a negative amount. -/
def formC9 : TransactionForm :=
  ⟨⟨2024, 1, 5⟩, "Cash refund", "Other Expense", "Expense", -5⟩

/-- The record that formC9 persists: the negative amount is stored
unchanged. -/
def recC9 : Transaction :=
  ⟨"t9", ⟨2024, 1, 5⟩, "Cash refund", "Other Expense", "Expense", -5⟩

/-! Helper lemmas. -/

/-- pyAbs agrees with the mathematical absolute value. -/
theorem pyAbs_eq_abs (q : ℚ) : pyAbs q = |q| := by
  by_cases h : q < 0
  · rw [pyAbs, if_pos h, abs_of_neg h]
  · rw [pyAbs, if_neg h, abs_of_nonneg (le_of_not_lt h)]

/-- Inserting into a sorted list is a permutation of consing. -/
theorem insertDesc_perm (a : Activity) (l : List Activity) :
    (insertDesc a l).Perm (a :: l) := by
  induction l with
  | nil => exact List.Perm.refl _
  | cons b bs ih =>
    rw [insertDesc]
    by_cases h : Date.lt a.date b.date = true
    · rw [if_pos h]
      exact (ih.cons b).trans (List.Perm.swap a b bs)
    · rw [if_neg h]

/-- The stable sort permutes its input. -/
theorem sortDesc_perm (l : List Activity) : (sortDesc l).Perm l := by
  induction l with
  | nil => exact List.Perm.refl _
  | cons a as ih => exact (insertDesc_perm a (sortDesc as)).trans (ih.cons a)

/-- The income fold of consolidated_view is the sum of the amounts of
the Income transactions of the list. -/
theorem foldl_income_eq (l : List Transaction) (a : ℚ) :
    l.foldl (fun acc t => if t.type = "Income" then acc + t.amount else acc) a
      = a + ((l.filter (fun t => decide (t.type = "Income"))).map
          Transaction.amount).sum := by
  induction l generalizing a with
  | nil => simp
  | cons t ts ih =>
    by_cases h : t.type = "Income"
    · simp only [List.foldl_cons, if_pos h, List.filter_cons, h, decide_True,
        if_true, List.map_cons, List.sum_cons, ih]
      ring
    · simp only [List.foldl_cons, if_neg h, List.filter_cons,
        decide_eq_false h, Bool.false_eq_true, if_false, ih]

/-- The expense fold of consolidated_view is the sum of the amounts of
the non-Income transactions of the list. -/
theorem foldl_expenses_eq (l : List Transaction) (a : ℚ) :
    l.foldl (fun acc t => if t.type = "Income" then acc else acc + t.amount) a
      = a + ((l.filter (fun t => decide (¬ t.type = "Income"))).map
          Transaction.amount).sum := by
  induction l generalizing a with
  | nil => simp
  | cons t ts ih =>
    by_cases h : t.type = "Income"
    · have hd : decide (¬ t.type = "Income") = false := by
        simp [h]
      simp only [List.foldl_cons, if_pos h, List.filter_cons, hd,
        Bool.false_eq_true, if_false, ih]
    · have hd : decide (¬ t.type = "Income") = true := by
        simp [h]
      simp only [List.foldl_cons, if_neg h, List.filter_cons, hd, if_pos,
        List.map_cons, List.sum_cons, ih]
      ring

/-- The invested fold of consolidated_view is the sum of the invested
amounts of the list. -/
theorem foldl_invested_eq (l : List Investment) (a : ℚ) :
    l.foldl (fun acc i => acc + i.amount_invested) a
      = a + (l.map Investment.amount_invested).sum := by
  induction l generalizing a with
  | nil => simp
  | cons i is ih =>
    simp only [List.foldl_cons, List.map_cons, List.sum_cons, ih]
    ring

/-- Membership in a day window is the pair of bounds. -/
theorem mem_dayRange (lo hi d : Int) :
    d ∈ dayRange lo hi ↔ lo ≤ d ∧ d < hi := by
  constructor
  · intro hd
    rw [dayRange] at hd
    obtain ⟨k, hk, hkd⟩ := List.mem_map.mp hd
    rw [List.mem_range] at hk
    omega
  · rintro ⟨h1, h2⟩
    rw [dayRange]
    exact List.mem_map.mpr
      ⟨(d - lo).toNat, List.mem_range.mpr (by omega), by omega⟩

/-- An empty day window. -/
theorem dayRange_self (lo : Int) : dayRange lo lo = [] := by
  simp [dayRange]

/-- Extending a day window by one day appends that day. -/
theorem dayRange_concat (lo : Int) (n : Nat) :
    dayRange lo (lo + n + 1) = dayRange lo (lo + n) ++ [lo + n] := by
  have h1 : ((lo + n + 1) - lo).toNat = n + 1 := by omega
  have h2 : ((lo + n) - lo).toNat = n := by omega
  simp [dayRange, h1, h2, List.range_succ]

/-- The last element of the filterMap over a day window comes from the
last day of the window carrying a value: every later day of the window
carries none. -/
theorem filterMap_last_session (f : Int → Option ℚ) (lo : Int) (n : Nat)
    (p : ℚ)
    (h : ((dayRange lo (lo + n)).filterMap f).getLast? = some p) :
    ∃ d, lo ≤ d ∧ d < lo + n ∧ f d = some p ∧
      ∀ d2, d < d2 → d2 < lo + n → f d2 = none := by
  induction n with
  | zero =>
    rw [Nat.cast_zero, add_zero, dayRange_self] at h
    simp at h
  | succ n ih =>
    have hc : (lo + ((n : Int) + 1)) = lo + n + 1 := by ring
    rw [Nat.cast_add, Nat.cast_one, hc, dayRange_concat,
      List.filterMap_append] at h
    cases hfn : f (lo + n) with
    | some q =>
      have he : ((dayRange lo (lo + n)).filterMap f ++ [lo + n].filterMap f)
          = (dayRange lo (lo + n)).filterMap f ++ [q] := by
        simp [hfn]
      rw [he, List.getLast?_concat] at h
      refine ⟨lo + n, by omega, by push_cast; omega, ?_, ?_⟩
      · rw [hfn]; exact h
      · intro d2 hgt hlt
        exfalso
        push_cast at hlt
        omega
    | none =>
      have he : ((dayRange lo (lo + n)).filterMap f ++ [lo + n].filterMap f)
          = (dayRange lo (lo + n)).filterMap f := by
        simp [hfn]
      rw [he] at h
      obtain ⟨d, h1, h2, h3, h4⟩ := ih h
      refine ⟨d, h1, by push_cast; omega, h3, ?_⟩
      intro d2 hgt hlt
      push_cast at hlt
      by_cases heq : d2 = lo + n
      · rw [heq]; exact hfn
      · exact h4 d2 hgt (by omega)

/-- A window download is empty exactly when no day of the window has
trading data. -/
theorem download_eq_nil (data : HistData) (ticker : String) (lo hi : Int) :
    download data ticker lo hi = [] ↔
      ∀ d, lo ≤ d → d < hi → data ticker d = none := by
  rw [download, List.filterMap_eq_nil_iff]
  constructor
  · intro h d h1 h2
    exact h d ((mem_dayRange lo hi d).mpr ⟨h1, h2⟩)
  · intro h d hd
    obtain ⟨h1, h2⟩ := (mem_dayRange lo hi d).mp hd
    exact h d h1 h2

/-- The date-range test unfolded to its two optional bounds. -/
theorem inRange_iff (start_date end_date : Option Date) (d : Date) :
    inRange start_date end_date d = true ↔
      (∀ sd, start_date = some sd → Date.le sd d = true) ∧
      (∀ ed, end_date = some ed → Date.le d ed = true) := by
  cases start_date <;> cases end_date <;> simp [inRange]

/-- Datetime comparison is reflexive, hence the bounds are inclusive. -/
theorem Date.le_refl (d : Date) : Date.le d d = true := by
  simp [Date.le]

/-! Claim theorems. -/

/-- C6: tax classification is a pure function of asset type and holding
months: Stock and Mutual Fund give LTCG above 12 months and STCG at or
below 12; every other asset type gives N/A; classify(Stock, 12) = STCG,
classify(Stock, 13) = LTCG; enrichment uses exactly this function. -/
theorem tax_status_classification :
    (∀ m : Int, tax_status "Stock" m = (if m > 12 then "LTCG" else "STCG")
      ∧ tax_status "Mutual Fund" m = (if m > 12 then "LTCG" else "STCG"))
    ∧ (∀ ty : String, ¬ ty = "Stock" → ¬ ty = "Mutual Fund" →
        ∀ m : Int, tax_status ty m = "N/A")
    ∧ tax_status "Stock" 12 = "STCG"
    ∧ tax_status "Stock" 13 = "LTCG"
    ∧ (∀ (info : LiveInfo) (now : Date) (inv : Investment),
        (enrich_one info now inv).tax_status
          = tax_status inv.type (holding_months now inv.purchase_date)) := by
  refine ⟨fun m => ⟨?_, ?_⟩, fun ty h1 h2 m => ?_, by decide, by decide,
    fun info now inv => rfl⟩
  · rw [tax_status, if_pos rfl]
  · rw [tax_status, if_neg (by decide), if_pos rfl]
  · rw [tax_status, if_neg h1, if_neg h2]

/-- C6 witness: a Gold asset held 5 months is N/A. -/
theorem tax_status_classification_witness :
    tax_status "Gold" 5 = "N/A" :=
  tax_status_classification.2.1 "Gold" (by decide) (by decide) 5

/-- C7: the holding period used by enrichment is the calendar-month
difference (yearNow - yearPurchase) * 12 + (monthNow - monthPurchase);
purchase 2023-01-31 evaluated on 2023-02-01 gives 1. -/
theorem holding_months_calendar :
    (∀ (info : LiveInfo) (now : Date) (inv : Investment),
      (enrich_one info now inv).holding_months
        = (now.year - inv.purchase_date.year) * 12
          + (now.month - inv.purchase_date.month))
    ∧ holding_months ⟨2023, 2, 1⟩ ⟨2023, 1, 31⟩ = 1 := by
  refine ⟨fun info now inv => ?_, by decide⟩
  show holding_months now inv.purchase_date = _
  rw [holding_months]
  ring

/-- C8: the live resolver returns 1.0 for the fixed-price sentinel
ticker (case-insensitive, with no external call: the result does not
depend on the oracle), and on any external-service failure of a
non-sentinel lookup (raised error or missing price field) it returns
0.0; the model is a total function, so no exception escapes. -/
theorem get_live_price_sentinel_failure :
    (∀ (info : LiveInfo) (ticker : String), lowerStr ticker = "n/a" →
      get_live_price info ticker = 1)
    ∧ (∀ (info info2 : LiveInfo) (ticker : String),
        lowerStr ticker = "n/a" →
        get_live_price info ticker = get_live_price info2 ticker)
    ∧ (∀ (info : LiveInfo) (ticker : String),
        ¬ ticker = "" → ¬ lowerStr ticker = "n/a" →
        info ticker = Except.error () →
        get_live_price info ticker = 0)
    ∧ (∀ (info : LiveInfo) (ticker : String),
        ¬ ticker = "" → ¬ lowerStr ticker = "n/a" →
        info ticker = Except.ok none →
        get_live_price info ticker = 0) := by
  have hs : ∀ (info : LiveInfo) (ticker : String),
      lowerStr ticker = "n/a" → get_live_price info ticker = 1 := by
    intro info ticker h
    rw [get_live_price, if_pos (Or.inr h)]
  refine ⟨hs, fun info info2 ticker h => ?_, ?_, ?_⟩
  · rw [hs info ticker h, hs info2 ticker h]
  · intro info ticker h1 h2 herr
    rw [get_live_price, if_neg (by tauto), herr]
  · intro info ticker h1 h2 hnone
    rw [get_live_price, if_neg (by tauto), hnone]

/-- C8 witness: the sentinel resolves to 1.0 even under the failing
oracle, and a failing non-sentinel lookup resolves to 0.0. -/
theorem get_live_price_sentinel_failure_witness :
    get_live_price errLive "N/A" = 1 ∧ get_live_price errLive "AAPL" = 0 :=
  ⟨get_live_price_sentinel_failure.1 errLive "N/A" (by decide),
    get_live_price_sentinel_failure.2.2.1 errLive "AAPL" (by decide)
      (by decide) rfl⟩

/-- C10: enrichment is non-destructive: the output has one record per
input record in the same order, each output carries the full input
record unchanged (the base of the copy) plus exactly the five derived
fields, computed as in the source. Input records are values; nothing is
mutated. -/
theorem enrich_investments_data_frame (info : LiveInfo) (now : Date)
    (investments : List Investment) :
    (enrich_investments_data info now investments).map
        EnrichedInvestment.base = investments
    ∧ (enrich_investments_data info now investments).length
        = investments.length
    ∧ enrich_investments_data info now investments
        = investments.map (enrich_one info now)
    ∧ (∀ inv : Investment,
        (enrich_one info now inv).base = inv
        ∧ (enrich_one info now inv).current_price
            = round2 (get_live_price info inv.ticker)
        ∧ (enrich_one info now inv).current_value
            = round2 (if get_live_price info inv.ticker ≠ 0 then
                inv.units * get_live_price info inv.ticker else 0)
        ∧ (enrich_one info now inv).gain_loss
            = round2 ((if get_live_price info inv.ticker ≠ 0 then
                inv.units * get_live_price info inv.ticker else 0)
                - inv.amount_invested)
        ∧ (enrich_one info now inv).holding_months
            = holding_months now inv.purchase_date
        ∧ (enrich_one info now inv).tax_status
            = tax_status inv.type (holding_months now inv.purchase_date)) := by
  refine ⟨?_, ?_, rfl, fun inv => ⟨rfl, rfl, rfl, rfl, rfl, rfl⟩⟩
  · rw [enrich_investments_data, List.map_map]
    exact (List.map_congr_left (fun a _ => rfl)).trans (List.map_id _)
  · rw [enrich_investments_data, List.length_map]

/-- C9 counterexample: the create operation persists a transaction with
a negative amount: submitting amount -5 stores -5. -/
theorem add_transaction_negative_counterexample :
    add_transaction [] "t9" formC9 = [recC9] ∧ recC9.amount < 0 :=
  ⟨rfl, by decide⟩

/-- C9 (amended): the create operation appends one record whose amount
is the submitted amount unchanged; no validation is applied, so the
stored amount is nonnegative only when the submitted amount is, and a
negative submitted amount is stored negative. -/
theorem add_transaction_amount_passthrough
    (transactions : List Transaction) (newId : String)
    (form : TransactionForm) :
    add_transaction transactions newId form
      = transactions ++
        [{ id := newId
           date := form.date
           description := form.description
           category := form.category
           type := form.type
           amount := form.amount }]
    ∧ (0 ≤ form.amount →
        ∀ t ∈ add_transaction transactions newId form,
          t ∈ transactions ∨ 0 ≤ t.amount)
    ∧ (form.amount < 0 →
        ∃ t ∈ add_transaction transactions newId form, t.amount < 0) := by
  refine ⟨rfl, ?_, ?_⟩
  · intro h t ht
    rw [add_transaction] at ht
    rcases List.mem_append.mp ht with hl | hr
    · exact Or.inl hl
    · rw [List.mem_singleton.mp hr]
      exact Or.inr h
  · intro h
    refine ⟨{ id := newId
              date := form.date
              description := form.description
              category := form.category
              type := form.type
              amount := form.amount }, ?_, h⟩
    rw [add_transaction]
    exact List.mem_append_right _ (List.mem_singleton.mpr rfl)

/-- C9 witness: at the concrete negative request the appended record
has a negative stored amount. -/
theorem add_transaction_amount_passthrough_witness :
    ∃ t ∈ add_transaction [] "t9" formC9, t.amount < 0 :=
  (add_transaction_amount_passthrough [] "t9" formC9).2.2 (by decide)

/-- C1 counterexample: a retained Expense transaction of amount 1500
produces an activity with amount +1500, not -1500: the consolidated
view does not negate non-Income transaction amounts. -/
theorem consolidated_view_no_negation_counterexample :
    (consolidated_view [tExp] [] none none).activities
      = [{ id := "t1"
           source := "transaction"
           date := ⟨2024, 1, 15⟩
           description := "January rent"
           category := "Rent"
           type := "Expense"
           amount := 1500 }]
    ∧ ¬ tExp.type = "Income"
    ∧ ¬ (1500 : ℚ) = -tExp.amount := by
  refine ⟨by decide, by decide, by decide⟩

/-- C1 (amended): every retained transaction produces an activity whose
amount is the stored amount unchanged, for Income and non-Income alike
(so +amount for Income, but not negated otherwise); every retained
investment produces an activity with category Investment, type
Investment and amount equal to the negated invested amount; the
activity feed consists of exactly these. -/
theorem consolidated_view_normalization (transactions : List Transaction)
    (investments : List Investment) (start_date end_date : Option Date) :
    (consolidated_view transactions investments start_date
        end_date).activities.Perm
      ((transactions.filter
          (fun t => inRange start_date end_date t.date)).map txActivity
        ++ (investments.filter
          (fun i => inRange start_date end_date i.purchase_date)).map
            invActivity)
    ∧ (∀ t : Transaction, (txActivity t).amount = t.amount
        ∧ (txActivity t).type = t.type)
    ∧ (∀ i : Investment, (invActivity i).category = "Investment"
        ∧ (invActivity i).type = "Investment"
        ∧ (invActivity i).amount = -i.amount_invested) := by
  refine ⟨?_, fun t => ⟨rfl, rfl⟩, fun i => ⟨rfl, rfl, rfl⟩⟩
  show (sortDesc _).Perm _
  exact sortDesc_perm _

/-- C4: the consolidated view retains exactly the records whose date
lies within the present bounds, inclusively, with an absent bound
unconstrained, and the feed is built from exactly the retained
records; datetime comparison is reflexive, so a record dated exactly on
a bound is retained. -/
theorem consolidated_view_date_filter (transactions : List Transaction)
    (investments : List Investment) (start_date end_date : Option Date) :
    (consolidated_view transactions investments start_date
        end_date).activities.Perm
      ((transactions.filter
          (fun t => inRange start_date end_date t.date)).map txActivity
        ++ (investments.filter
          (fun i => inRange start_date end_date i.purchase_date)).map
            invActivity)
    ∧ (∀ t : Transaction,
        t ∈ transactions.filter (fun t => inRange start_date end_date t.date)
          ↔ t ∈ transactions
            ∧ (∀ sd, start_date = some sd → Date.le sd t.date = true)
            ∧ (∀ ed, end_date = some ed → Date.le t.date ed = true))
    ∧ (∀ i : Investment,
        i ∈ investments.filter
            (fun i => inRange start_date end_date i.purchase_date)
          ↔ i ∈ investments
            ∧ (∀ sd, start_date = some sd →
                Date.le sd i.purchase_date = true)
            ∧ (∀ ed, end_date = some ed →
                Date.le i.purchase_date ed = true))
    ∧ (∀ d : Date, Date.le d d = true) := by
  refine ⟨?_, ?_, ?_, Date.le_refl⟩
  · show (sortDesc _).Perm _
    exact sortDesc_perm _
  · intro t
    exact List.mem_filter.trans
      (and_congr_right fun _ => inRange_iff start_date end_date t.date)
  · intro i
    exact List.mem_filter.trans
      (and_congr_right fun _ =>
        inRange_iff start_date end_date i.purchase_date)

/-- C4 witness: a transaction dated exactly on the start bound is
retained by the filter. -/
theorem consolidated_view_date_filter_witness :
    tBoundary ∈ [tBoundary].filter
      (fun t => inRange (some ⟨2024, 3, 1⟩) (some ⟨2024, 12, 31⟩) t.date) :=
  ((consolidated_view_date_filter [tBoundary] [] (some ⟨2024, 3, 1⟩)
      (some ⟨2024, 12, 31⟩)).2.1 tBoundary).mpr
    ⟨by decide, fun sd h => by cases h; decide,
      fun ed h => by cases h; decide⟩

/-- C5: the three totals of the consolidated view are the sum of the
amounts of the retained Income transactions, the absolute value of the
sum of the amounts of the retained non-Income transactions, and the sum
of the invested amounts of the retained investments, all over the same
filtered sets from which the activity feed is built. -/
theorem consolidated_view_totals (transactions : List Transaction)
    (investments : List Investment) (start_date end_date : Option Date) :
    (consolidated_view transactions investments start_date
        end_date).total_income
      = (((transactions.filter
            (fun t => inRange start_date end_date t.date)).filter
            (fun t => decide (t.type = "Income"))).map
          Transaction.amount).sum
    ∧ (consolidated_view transactions investments start_date
        end_date).total_expenses
      = |(((transactions.filter
            (fun t => inRange start_date end_date t.date)).filter
            (fun t => decide (¬ t.type = "Income"))).map
          Transaction.amount).sum|
    ∧ (consolidated_view transactions investments start_date
        end_date).total_invested
      = ((investments.filter
            (fun i => inRange start_date end_date i.purchase_date)).map
          Investment.amount_invested).sum
    ∧ (consolidated_view transactions investments start_date
        end_date).activities.Perm
      ((transactions.filter
          (fun t => inRange start_date end_date t.date)).map txActivity
        ++ (investments.filter
          (fun i => inRange start_date end_date i.purchase_date)).map
            invActivity) := by
  refine ⟨?_, ?_, ?_, ?_⟩
  · show List.foldl _ 0 _ = _
    rw [foldl_income_eq, zero_add]
  · show pyAbs (List.foldl _ 0 _) = _
    rw [foldl_expenses_eq, zero_add, pyAbs_eq_abs]
  · show List.foldl _ 0 _ = _
    rw [foldl_invested_eq, zero_add]
  · show (sortDesc _).Perm _
    exact sortDesc_perm _

/-- C2 counterexample: under market data whose close is 0.0, the
create-investment operation is not rejected: a record with
purchase_price = 0 and units = 0 is persisted. -/
theorem create_investment_zero_price_counterexample :
    create_investment hist0 [] "i1" formC2 = some [recC2]
    ∧ recC2.purchase_price = 0 ∧ recC2.units = 0 := by
  refine ⟨by decide, by decide, by decide⟩

/-- C2 (amended): the create-investment operation is rejected with
nothing persisted exactly when the historical price resolves to none;
when it resolves to any number p, even zero or negative, a record is
appended with purchase_price = p and units = amount / p when p > 0 and
units = 0 otherwise. -/
theorem create_investment_rejects_only_none (data : HistData)
    (investments : List Investment) (newId : String)
    (form : InvestmentForm) :
    (get_historical_price data (upperStr form.ticker)
        form.purchase_date.toDay = none →
      create_investment data investments newId form = none)
    ∧ (∀ p : ℚ, get_historical_price data (upperStr form.ticker)
        form.purchase_date.toDay = some p →
      create_investment data investments newId form
        = some (investments ++
            [{ id := newId
               purchase_date := form.purchase_date
               name := form.name
               ticker := upperStr form.ticker
               type := form.type
               amount_invested := form.amount_invested
               purchase_price := p
               units := if p > 0 then form.amount_invested / p
                 else 0 }])) := by
  constructor
  · intro h
    simp only [create_investment, h]
  · intro p h
    simp only [create_investment, h]

/-- C2 witness: at the zero-price oracle the amended description is
realized with p = 0. -/
theorem create_investment_rejects_only_none_witness :
    create_investment hist0 [] "i1" formC2
      = some ([] ++
          [{ id := "i1"
             purchase_date := formC2.purchase_date
             name := formC2.name
             ticker := upperStr formC2.ticker
             type := formC2.type
             amount_invested := formC2.amount_invested
             purchase_price := (0 : ℚ)
             units := if (0 : ℚ) > 0 then formC2.amount_invested / 0
               else 0 }]) :=
  (create_investment_rejects_only_none hist0 [] "i1" formC2).2 0 (by decide)

/-- C3: for a non-sentinel ticker, a window is empty exactly when no
day of it has trading data; a non-empty first window of two days from
the date yields its first close; an empty first window with a non-empty
expanded window of the four previous days yields the close of the last
session of the expanded window (every later day of the window has no
data); two empty windows yield none. -/
theorem get_historical_price_fallback (data : HistData) (ticker : String)
    (date : Int) (h1 : ¬ ticker = "") (h2 : ¬ lowerStr ticker = "n/a") :
    (∀ lo hi, download data ticker lo hi = [] ↔
      ∀ d, lo ≤ d → d < hi → data ticker d = none)
    ∧ (¬ download data ticker date (date + 2) = [] →
        get_historical_price data ticker date
          = (download data ticker date (date + 2)).head?)
    ∧ (download data ticker date (date + 2) = [] →
       ¬ download data ticker (date - 4) (date + 2) = [] →
        ∃ d p, date - 4 ≤ d ∧ d < date + 2 ∧ data ticker d = some p ∧
          (∀ d2, d < d2 → d2 < date + 2 → data ticker d2 = none) ∧
          get_historical_price data ticker date = some p)
    ∧ (download data ticker date (date + 2) = [] →
       download data ticker (date - 4) (date + 2) = [] →
        get_historical_price data ticker date = none) := by
  have hng : ¬ (ticker = "" ∨ lowerStr ticker = "n/a") := by tauto
  have hunfold : get_historical_price data ticker date
      = match download data ticker date (date + 2) with
        | [] => (download data ticker (date - 4) (date + 2)).getLast?
        | c :: _ => some c := by
    rw [get_historical_price, if_neg hng]
  refine ⟨download_eq_nil data ticker, ?_, ?_, ?_⟩
  · intro hne
    rw [hunfold]
    cases hd : download data ticker date (date + 2) with
    | nil => exact absurd hd hne
    | cons c cs => rfl
  · intro hemp hne
    obtain ⟨p, hp⟩ : ∃ p,
        (download data ticker (date - 4) (date + 2)).getLast? = some p := by
      cases hl : (download data ticker (date - 4) (date + 2)).getLast? with
      | some p => exact ⟨p, rfl⟩
      | none => exact absurd (List.getLast?_eq_none_iff.mp hl) hne
    have hw : (date : Int) + 2 = (date - 4) + ((6 : Nat) : Int) := by
      push_cast
      ring
    have hp6 : ((dayRange (date - 4) ((date - 4) + ((6 : Nat) : Int))).filterMap
        (fun d => data ticker d)).getLast? = some p := by
      rw [download, hw] at hp
      exact hp
    obtain ⟨d, hd1, hd2, hd3, hd4⟩ :=
      filterMap_last_session (fun d => data ticker d) (date - 4) 6 p hp6
    refine ⟨d, p, hd1, by push_cast at hd2; omega, hd3, ?_, ?_⟩
    · intro d2 hgt hlt
      exact hd4 d2 hgt (by push_cast; omega)
    · rw [hunfold, hemp]
      exact hp
  · intro hemp hemp2
    rw [hunfold, hemp, hemp2]
    rfl

/-- C3 witness: a purchase dated two days after the only session of the
window (a weekend date) resolves to that last session, not none. -/
theorem get_historical_price_fallback_witness :
    ∃ d p, (12 : Int) - 4 ≤ d ∧ d < 12 + 2 ∧ histW "AAPL" d = some p ∧
      (∀ d2, d < d2 → d2 < 12 + 2 → histW "AAPL" d2 = none) ∧
      get_historical_price histW "AAPL" 12 = some p :=
  (get_historical_price_fallback histW "AAPL" 12 (by decide)
      (by decide)).2.2.1 (by decide) (by decide)

end FinTrack
